import Mathlib

/-!
# Verification of `esbuild.config.js` (accessibility-widget build configuration)

Shallow embedding of the build-configuration script. External collaborators
(the esbuild engine, the html-minifier library, the file system) are modelled
as function parameters; everything the script itself computes — CLI flag
parsing, the two asset-transform hooks, the banner text, the target table and
the build orchestration with its exit code — is translated directly from the
source.
-/

namespace EsbuildConfig

/-- The `repository` / `originalRepository` objects of `package.json`. -/
structure Repository where
  url : String
deriving Repr, DecidableEq

/-- The fields of `package.json` that the script reads.  Optional fields are
`Option String`; JS treats a missing field as `undefined` (falsy). -/
structure PackageJson where
  version : String
  license : String
  author : String
  repository : Repository
  modifiedByCompany : Option String := none
  modifiedByAuthor : Option String := none
  originalRepository : Option Repository := none
deriving Repr, DecidableEq

/-- JS truthiness of an optional string: `undefined` and `""` are falsy. -/
def truthyStr : Option String → Bool
  | none => false
  | some s => s != ""

/-- `leadsList sub l` : `sub` matches at the head of `l`. -/
def leadsList : List Char → List Char → Bool
  | [], _ => true
  | _ :: _, [] => false
  | a :: s, b :: l => a == b && leadsList s l

/-- JS `String.prototype.startsWith`. -/
def jsStartsWith (pre s : String) : Bool := leadsList pre.data s.data

/-- JS `String.prototype.endsWith`. -/
def jsEndsWith (suf s : String) : Bool :=
  leadsList suf.data.reverse s.data.reverse

/-- JS `String.prototype.split` with a one-character separator, on lists:
splits at every occurrence of the separator. -/
def splitOnChar (sep : Char) : List Char → List (List Char)
  | [] => [[]]
  | c :: t =>
    match splitOnChar sep t with
    | [] => [[]]
    | r :: rs => if c == sep then [] :: r :: rs else (c :: r) :: rs

/-- JS `String.prototype.split` with a one-character separator. -/
def jsSplit (s : String) (sep : Char) : List String :=
  (splitOnChar sep s.data).map String.mk

/-- `const isWatch = process.argv.includes('--watch')` (line 6). -/
def isWatch (argv : List String) : Bool := argv.contains "--watch"

/-- `const isMinify = process.argv.includes('--minify')` (line 7). -/
def isMinify (argv : List String) : Bool := argv.contains "--minify"

/-- `process.argv.find((arg) => arg.startsWith('--target='))` (line 9). -/
def targetArg (argv : List String) : Option String :=
  argv.find? (fun a => jsStartsWith "--target=" a)

/-- `const targetFormat = targetArg ? targetArg.split('=')[1] : 'umd'`
(line 10).  When the flag is present it starts with `--target=`, so
`split('=')` has at least two fields and index 1 is defined. -/
def targetFormat (argv : List String) : String :=
  match targetArg argv with
  | some arg => (jsSplit arg '=').getD 1 ""
  | none => "umd"

/-- Options record passed to `esbuild.transform` (lines 25–28). -/
structure TransformOptions where
  loader : String
  minify : Bool
deriving Repr, DecidableEq

/-- Result of `esbuild.transform`: the `code` field is all the script uses. -/
structure TransformResult where
  code : String
deriving Repr, DecidableEq

/-- The object an `onLoad` hook returns to esbuild: `loader` and `contents`. -/
structure OnLoadResult where
  loader : String
  contents : String
deriving Repr, DecidableEq

/-- The `onLoad` filter regex of the CSS plugin, `/\.css$/` (line 23). -/
def cssFilter (path : String) : Bool := jsEndsWith ".css" path

/-- The `onLoad` filter regex of the HTML plugin, `/\.(html|svg)$/` (line 36). -/
def htmlFilter (path : String) : Bool :=
  jsEndsWith ".html" path || jsEndsWith ".svg" path

/-- The options object passed to `esbuild.transform` inside the CSS plugin:
`loader: 'css', minify: true` (lines 26–27).  Note `minify` is the literal
`true`, not the `--minify` CLI flag. -/
def cssTransformOptions : TransformOptions :=
  { loader := "css", minify := true }

namespace CSSMinifyPlugin

/-- The `onLoad` callback of `CSSMinifyPlugin` (lines 23–30): read the file,
run the engine's CSS transform with `cssTransformOptions`, return the code
tagged with the `text` loader.  `transform` models `esbuild.transform` and
`readFileSync` models `fs.readFileSync(path, 'utf8')`. -/
def onLoad (transform : String → TransformOptions → TransformResult)
    (readFileSync : String → String) (path : String) : OnLoadResult :=
  let file := readFileSync path
  let css := transform file cssTransformOptions
  { loader := "text", contents := css.code }

end CSSMinifyPlugin

/-- Options record passed to the `html-minifier` `minify` call (lines 38–42). -/
structure HtmlMinifyOptions where
  removeComments : Bool
  removeEmptyAttributes : Bool
  collapseWhitespace : Bool
deriving Repr, DecidableEq

/-- The literal options object of lines 39–41. -/
def htmlMinifyOptions : HtmlMinifyOptions :=
  { removeComments := true, removeEmptyAttributes := true,
    collapseWhitespace := true }

/-- The character class trimmed by JS `String.prototype.trim`: ASCII
whitespace, the Unicode space-separator (Zs) code points, the line and
paragraph separators, and the byte-order mark. -/
def isJsWhitespace (c : Char) : Bool :=
  c == ' ' || c == '\t' || c == '\n' || c == '\r' ||
  c == Char.ofNat 11 || c == Char.ofNat 12 || c == Char.ofNat 160 ||
  c == Char.ofNat 0x1680 ||
  (0x2000 ≤ c.toNat && c.toNat ≤ 0x200A) ||
  c == Char.ofNat 0x202F || c == Char.ofNat 0x205F || c == Char.ofNat 0x3000 ||
  c == Char.ofNat 0x2028 || c == Char.ofNat 0x2029 || c == Char.ofNat 0xFEFF

/-- Remove leading whitespace (the first half of `.trim()`). -/
def trimStartList (l : List Char) : List Char := l.dropWhile isJsWhitespace

/-- Remove trailing whitespace (the second half of `.trim()`). -/
def trimEndList (l : List Char) : List Char :=
  (l.reverse.dropWhile isJsWhitespace).reverse

/-- JS `String.prototype.trim` on a character list. -/
def jsTrimList (l : List Char) : List Char := trimEndList (trimStartList l)

/-- JS `String.prototype.trim`. -/
def jsTrim (s : String) : String := String.mk (jsTrimList s.data)

namespace HTMLMinifyPlugin

/-- The `onLoad` callback of `HTMLMinifyPlugin` (lines 36–44): read the file,
minify it with `htmlMinifyOptions`, trim the result, and return it tagged with
the `text` loader.  `minify` models the external `html-minifier` library. -/
def onLoad (minify : String → HtmlMinifyOptions → String)
    (readFileSync : String → String) (path : String) : OnLoadResult :=
  let file := readFileSync path
  let html := jsTrim (minify file htmlMinifyOptions)
  { loader := "text", contents := html }

end HTMLMinifyPlugin

/-- The `banner.js` template literal (lines 49–70), as a function of the
package metadata and of `new Date().getFullYear()`.  The conditional block is
the nested template of lines 52–62; `originalRepository?.url ||
repository.url` is the fallback of line 68. -/
def banner (pkg : PackageJson) (year : Nat) : String :=
  "/*!\n* Accessibility Widget v" ++ pkg.version ++
  "\n* Based on \"Sienna Accessibility Widget\" by bennyluk (MIT License)\n" ++
  (if truthyStr pkg.modifiedByCompany then
    " * Modified by " ++ pkg.modifiedByCompany.getD "" ++ ", " ++
      toString year ++
      (if truthyStr pkg.modifiedByAuthor then
        " (" ++ pkg.modifiedByAuthor.getD "" ++ ")"
      else "")
  else "") ++
  "\n* License: " ++ pkg.license ++
  "\n* Repository: " ++ pkg.repository.url ++
  "\n* \n* Original: (c) " ++ toString year ++ " " ++ pkg.author ++
  "\n* Original Repository: " ++
  (match pkg.originalRepository with
   | some r => if r.url != "" then r.url else pkg.repository.url
   | none => pkg.repository.url) ++
  "\n*/"

/-- The non-plugin, non-banner part of `baseConfig` (lines 12–18), plus the
banner text.  The two plugins are modelled separately above. -/
structure BaseConfig where
  entryPoints : List String
  bundle : Bool
  minify : Bool
  sourcemap : Bool
  aliasMap : List (String × String)
  loaderMap : List (String × String)
  bannerJs : String
deriving Repr, DecidableEq

/-- `baseConfig` (lines 12–72) as a function of the CLI arguments, the
package metadata and the current year. -/
def baseConfig (argv : List String) (pkg : PackageJson) (year : Nat) :
    BaseConfig :=
  { entryPoints := ["./src/entry.ts"]
    bundle := true
    minify := isMinify argv
    sourcemap := true
    aliasMap := [("@", "./src")]
    loaderMap := [(".html", "text"), (".svg", "text")]
    bannerJs := banner pkg year }

/-- One named build target (lines 77–89): format, output file, optional
global name. -/
structure Target where
  format : String
  outfile : String
  globalName : Option String := none
deriving Repr, DecidableEq

/-- The `targets` object (lines 76–90), in insertion order, keyed by name.
`version` is `packageJson.version` (line 75). -/
def targets (version : String) : List (String × Target) :=
  [("esm", { format := "esm", outfile := "dist/accessibility-widget.esm.js" }),
   ("cjs", { format := "cjs", outfile := "dist/accessibility-widget.cjs.js" }),
   ("umd", { format := "iife", outfile := "dist/accessibility-widget.umd.js",
             globalName := some "AccessibilityWidget" }),
   ("umd-versioned",
     { format := "iife",
       outfile := "dist/accessibility-widget-" ++ version ++ ".umd.js",
       globalName := some "AccessibilityWidget" })]

/-- The property names every plain object literal inherits from
`Object.prototype`: for these, `targets[name]` is a defined, truthy member
(a function, or the prototype object for `__proto__`) even though `name` is
not a target key, while every other non-key name yields `undefined`. -/
def objectPrototypeKeys : List String :=
  ["constructor", "hasOwnProperty", "isPrototypeOf", "propertyIsEnumerable",
   "toLocaleString", "toString", "valueOf", "__proto__", "__defineGetter__",
   "__defineSetter__", "__lookupGetter__", "__lookupSetter__"]

/-- Result of the JS property access `targets[targetFormat]` (line 92): an
own property (one of the four target records), a member inherited from
`Object.prototype` — defined and truthy but carrying none of the target
fields, so that reading `.outfile` on it gives `undefined` without throwing —
or `undefined` itself. -/
inductive TargetsProp where
  | own : Target → TargetsProp
  | inheritedMember : TargetsProp
  | undef : TargetsProp
deriving Repr, DecidableEq

/-- The own-property view of `const buildTarget = targets[targetFormat]`
(line 92): `some` exactly on the four defined target keys.  The full JS
access is `targetsAccess`, which additionally hits `Object.prototype`
members for names like `toString`; the two agree wherever an own property
exists (`targetsAccess_own_iff`). -/
def buildTarget (version : String) (argv : List String) : Option Target :=
  (targets version).lookup (targetFormat argv)

/-- `const buildTarget = targets[targetFormat]` (line 92) with full JS
property-access semantics: an own property if the name is a target key,
otherwise the `Object.prototype` member for inherited names, otherwise
`undefined`. -/
def targetsAccess (version : String) (argv : List String) : TargetsProp :=
  match buildTarget version argv with
  | some t => TargetsProp.own t
  | none =>
    if objectPrototypeKeys.contains (targetFormat argv) then
      TargetsProp.inheritedMember
    else TargetsProp.undef

/-- The JS property access yields a target record exactly when the
own-property lookup does. -/
theorem targetsAccess_own_iff (version : String) (argv : List String)
    (t : Target) :
    targetsAccess version argv = TargetsProp.own t
      ↔ buildTarget version argv = some t := by
  unfold targetsAccess
  cases h : buildTarget version argv with
  | some u => simp
  | none =>
    by_cases hc : targetFormat argv ∈ objectPrototypeKeys
    · simp [hc]
    · simp [hc]

/-- `Object.entries(targets).filter(([key]) => key !== 'umd-versioned')`
(lines 102–104). -/
def targetsToBuild (version : String) : List (String × Target) :=
  (targets version).filter (fun kv => kv.1 != "umd-versioned")

/-- `Promise.all` over build results: resolves when all resolve, rejects if
any rejects (the model reports the first rejection in list order; which
rejection wins has no observable effect here). -/
def promiseAll : List (Except String Unit) → Except String Unit
  | [] => Except.ok ()
  | Except.ok _ :: rest => promiseAll rest
  | Except.error e :: _ => Except.error e

/-- Whether an engine result is a resolution. -/
def exceptOk : Except String Unit → Bool
  | Except.ok _ => true
  | Except.error _ => false

/-- The `build` function (lines 94–113).  `engine` models one esbuild
invocation (`esbuild.build` in one-shot mode, `esbuild.context`/`ctx.watch`
in watch mode) on the merged `{ ...baseConfig, ...target }` config.  The
returned pair is the list of targets handed to the engine and the
resolution/rejection of the `build()` promise.

* Watch branch with a defined target: one engine call, then the
  `console.log` of line 98 reads `buildTarget.outfile` and succeeds.
* Watch branch with `buildTarget` an `Object.prototype` member (a name like
  `toString`): spreading it adds nothing, the context is created from the
  bare base config, and line 98 reads `.outfile` as `undefined` without
  throwing; the promise then tracks the engine's outcome on that target-less
  config, which the `Target`-typed engine parameter cannot express, so the
  model records the resolution path and no theorem relies on this branch.
* Watch branch with `buildTarget` undefined: line 96 still runs on the bare
  base config, but line 98 evaluates `buildTarget.outfile` on `undefined`, a
  TypeError, so the promise rejects whatever the engine did, and no named
  target is built (`{ ...undefined }` spreads to nothing).
* One-shot branch: every filtered target is built concurrently; if all
  resolve, line 110 reads `buildTarget.outfile`, which throws when
  `buildTarget` is undefined but merely logs `undefined` when it is an
  inherited member. -/
def build (engine : Target → Except String Unit) (version : String)
    (argv : List String) : List Target × Except String Unit :=
  if isWatch argv then
    match targetsAccess version argv with
    | TargetsProp.own t => ([t], engine t)
    | TargetsProp.inheritedMember => ([], Except.ok ())
    | TargetsProp.undef =>
      ([], Except.error "TypeError: Cannot read properties of undefined")
  else
    ((targetsToBuild version).map Prod.snd,
     match promiseAll (((targetsToBuild version).map Prod.snd).map engine),
           targetsAccess version argv with
     | Except.ok _, TargetsProp.own _ => Except.ok ()
     | Except.ok _, TargetsProp.inheritedMember => Except.ok ()
     | Except.ok _, TargetsProp.undef =>
       Except.error "TypeError: Cannot read properties of undefined"
     | Except.error e, _ => Except.error e)

/-- `build().catch(() => process.exit(1))` (line 115): exit status 1 when the
promise rejects, 0 when the process runs to completion. -/
def exitCode (engine : Target → Except String Unit) (version : String)
    (argv : List String) : Nat :=
  match (build engine version argv).2 with
  | Except.ok _ => 0
  | Except.error _ => 1

/-! ## Substring occurrence

A small executable theory of contiguous occurrence of one character sequence
inside another, used to state "contains the substring …" / "contains no …"
properties of transform outputs and of the banner. -/

/-- `occursIn sub l` : `sub` occurs contiguously somewhere inside `l`. -/
def occursIn (sub : List Char) : List Char → Bool
  | [] => leadsList sub []
  | b :: t => leadsList sub (b :: t) || occursIn sub t

theorem occursIn_nil (l : List Char) : occursIn [] l = true := by
  cases l <;> simp [occursIn, leadsList]

theorem leadsList_append {sub l : List Char} (r : List Char)
    (h : leadsList sub l = true) : leadsList sub (l ++ r) = true := by
  induction sub generalizing l with
  | nil => simp [leadsList]
  | cons a s ih =>
    cases l with
    | nil => simp [leadsList] at h
    | cons b t =>
      simp only [leadsList, Bool.and_eq_true] at h
      simpa [leadsList, Bool.and_eq_true, h.1] using ih h.2

theorem occursIn_append_right {sub l : List Char} (r : List Char)
    (h : occursIn sub l = true) : occursIn sub (l ++ r) = true := by
  induction l with
  | nil =>
    cases sub with
    | nil => simpa using occursIn_nil r
    | cons a s => simp [occursIn, leadsList] at h
  | cons b t ih =>
    simp only [occursIn, Bool.or_eq_true] at h
    rcases h with h | h
    · simpa [occursIn, Bool.or_eq_true] using Or.inl (leadsList_append r h)
    · simpa [occursIn, Bool.or_eq_true] using Or.inr (ih h)

theorem occursIn_append_left {sub r : List Char} (l : List Char)
    (h : occursIn sub r = true) : occursIn sub (l ++ r) = true := by
  induction l with
  | nil => simpa using h
  | cons b t ih => simpa [occursIn, Bool.or_eq_true] using Or.inr ih

theorem occursIn_str_append {sub : List Char} {a : String} (b : String)
    (h : occursIn sub a.data = true) : occursIn sub (a ++ b).data = true := by
  rw [String.data_append]
  exact occursIn_append_right b.data h

/-! ## Facts about `jsTrim` -/

theorem dropWhile_head_not (p : Char → Bool) (l : List Char) {c : Char}
    (h : (l.dropWhile p).head? = some c) : p c = false := by
  induction l with
  | nil => simp [List.dropWhile] at h
  | cons a t ih =>
    rw [List.dropWhile_cons] at h
    by_cases hp : p a = true
    · exact ih (by simpa [hp] using h)
    · simp only [hp, if_false, List.head?] at h
      cases h
      simpa using hp

theorem dropWhile_decomp (p : Char → Bool) (l : List Char) :
    ∃ pre, l = pre ++ l.dropWhile p := by
  induction l with
  | nil => exact ⟨[], rfl⟩
  | cons a t ih =>
    rw [List.dropWhile_cons]
    by_cases hp : p a = true
    · obtain ⟨pre, hpre⟩ := ih
      exact ⟨a :: pre, by simp [hp, ← hpre]⟩
    · exact ⟨[], by simp [hp]⟩

theorem head?_append_left {l : List Char} (r : List Char) {c : Char}
    (h : l.head? = some c) : (l ++ r).head? = some c := by
  cases l with
  | nil => simp at h
  | cons a t => simpa using h

/-- The three facts about `jsTrimList` the claims need: its first and last
characters (when present) are not whitespace, and any sequence occurring in
the trimmed list already occurred in the original list. -/
theorem jsTrimList_spec (l : List Char) :
    (∀ c, (jsTrimList l).head? = some c → isJsWhitespace c = false) ∧
    (∀ c, (jsTrimList l).getLast? = some c → isJsWhitespace c = false) ∧
    (∀ sub, occursIn sub (jsTrimList l) = true → occursIn sub l = true) := by
  obtain ⟨pre0, hpre0⟩ := dropWhile_decomp isJsWhitespace l
  set y := l.dropWhile isJsWhitespace with hy
  obtain ⟨pre1, hpre1⟩ := dropWhile_decomp isJsWhitespace y.reverse
  set d := y.reverse.dropWhile isJsWhitespace with hd
  have htrim : jsTrimList l = d.reverse := rfl
  have hysplit : y = d.reverse ++ pre1.reverse := by
    have := congrArg List.reverse hpre1
    simpa using this
  refine ⟨?_, ?_, ?_⟩
  · intro c hc
    rw [htrim] at hc
    have hy' : y.head? = some c := by
      rw [hysplit]; exact head?_append_left _ hc
    exact dropWhile_head_not isJsWhitespace l hy'
  · intro c hc
    rw [htrim, List.getLast?_reverse] at hc
    exact dropWhile_head_not isJsWhitespace y.reverse hc
  · intro sub hsub
    rw [htrim] at hsub
    have h1 : occursIn sub y = true := by
      rw [hysplit]; exact occursIn_append_right _ hsub
    rw [hpre0]
    exact occursIn_append_left _ h1

/-! ## A `Promise.all` resolution criterion -/

theorem promiseAll_ok_iff (rs : List (Except String Unit)) :
    promiseAll rs = Except.ok () ↔ ∀ r ∈ rs, exceptOk r = true := by
  induction rs with
  | nil => simp [promiseAll]
  | cons r t ih =>
    cases r with
    | ok u => cases u; simp [promiseAll, exceptOk, ih]
    | error e => simp [promiseAll, exceptOk]

/-! ## Distinctness of the versioned output file -/

theorem versioned_outfile_ne (v : String) :
    "dist/accessibility-widget-" ++ v ++ ".umd.js"
      ≠ "dist/accessibility-widget.umd.js" := by
  intro h
  have hlen := congrArg (fun s : String => s.data.length) h
  simp only [String.data_append, List.length_append] at hlen
  have h26 : ("dist/accessibility-widget-" : String).data.length = 26 := rfl
  have h7 : (".umd.js" : String).data.length = 7 := rfl
  have h32 : ("dist/accessibility-widget.umd.js" : String).data.length = 32 :=
    rfl
  rw [h26, h7, h32] at hlen
  omega

/-- In one-shot mode the targets handed to the engine are the filtered
entries of the target table, in definition order. -/
theorem build_oneshot_fst (engine : Target → Except String Unit)
    (version : String) (argv : List String) (hw : isWatch argv = false) :
    (build engine version argv).1 = (targetsToBuild version).map Prod.snd := by
  unfold build
  rw [hw]
  rfl

/-! ## Claim theorems -/

/-- C1: for every input file whose path matches the stylesheet filter
(`/\.css$/`), the stylesheet transform's returned module content is exactly
the result of running the engine's CSS minifier (`esbuild.transform` with
`loader: 'css'` and `minify: true`) on that file's text contents, and the
result is tagged with the `text` loader. -/
theorem c1_css_transform_exact
    (transform : String → TransformOptions → TransformResult)
    (readFileSync : String → String) (path : String)
    (_hpath : cssFilter path = true) :
    (CSSMinifyPlugin.onLoad transform readFileSync path).contents
        = (transform (readFileSync path)
            { loader := "css", minify := true }).code ∧
    (CSSMinifyPlugin.onLoad transform readFileSync path).loader = "text" :=
  ⟨rfl, rfl⟩

/-- Witness for C1 at a concrete minifier, file system and path. -/
theorem c1_css_transform_exact_witness :
    cssFilter "widget.css" = true ∧
    ((CSSMinifyPlugin.onLoad (fun s _ => TransformResult.mk s)
        (fun _ => "p color:red") "widget.css").contents = "p color:red" ∧
     (CSSMinifyPlugin.onLoad (fun s _ => TransformResult.mk s)
        (fun _ => "p color:red") "widget.css").loader = "text") :=
  ⟨by decide, c1_css_transform_exact (fun s _ => TransformResult.mk s)
      (fun _ => "p color:red") "widget.css" (by decide)⟩

/-- C2: for every input file whose path matches the markup filter
(`/\.(html|svg)$/`), the markup transform invokes the minification pass with
exactly `removeComments`, `removeEmptyAttributes` and `collapseWhitespace`
enabled, trims the result, and therefore returns content with no leading or
trailing whitespace; and — given that the external minifier honors those
options by emitting no comment markers and no empty attribute declarations —
the returned content contains none either, since trimming only removes edge
characters and cannot create occurrences. -/
theorem c2_html_transform_minified_trimmed
    (minify : String → HtmlMinifyOptions → String)
    (readFileSync : String → String) (path : String)
    (_hpath : htmlFilter path = true)
    (hcomment : occursIn ("<!--").data
        (minify (readFileSync path) htmlMinifyOptions).data = false)
    (hattr : occursIn ("=\"\"").data
        (minify (readFileSync path) htmlMinifyOptions).data = false) :
    htmlMinifyOptions.removeComments = true ∧
    htmlMinifyOptions.removeEmptyAttributes = true ∧
    htmlMinifyOptions.collapseWhitespace = true ∧
    (∀ c, (HTMLMinifyPlugin.onLoad minify readFileSync
        path).contents.data.head? = some c → isJsWhitespace c = false) ∧
    (∀ c, (HTMLMinifyPlugin.onLoad minify readFileSync
        path).contents.data.getLast? = some c → isJsWhitespace c = false) ∧
    occursIn ("<!--").data
      (HTMLMinifyPlugin.onLoad minify readFileSync path).contents.data
        = false ∧
    occursIn ("=\"\"").data
      (HTMLMinifyPlugin.onLoad minify readFileSync path).contents.data
        = false := by
  have hout : (HTMLMinifyPlugin.onLoad minify readFileSync path).contents.data
      = jsTrimList (minify (readFileSync path) htmlMinifyOptions).data := rfl
  obtain ⟨h1, h2, h3⟩ :=
    jsTrimList_spec (minify (readFileSync path) htmlMinifyOptions).data
  refine ⟨rfl, rfl, rfl, ?_, ?_, ?_, ?_⟩
  · intro c hc
    rw [hout] at hc
    exact h1 c hc
  · intro c hc
    rw [hout] at hc
    exact h2 c hc
  · rw [hout]
    cases hq : occursIn ("<!--").data
        (jsTrimList (minify (readFileSync path) htmlMinifyOptions).data) with
    | false => rfl
    | true =>
      rw [h3 _ hq] at hcomment
      cases hcomment
  · rw [hout]
    cases hq : occursIn ("=\"\"").data
        (jsTrimList (minify (readFileSync path) htmlMinifyOptions).data) with
    | false => rfl
    | true =>
      rw [h3 _ hq] at hattr
      cases hattr

/-- Witness for C2 at a concrete minifier output `" ok "`. -/
theorem c2_html_transform_minified_trimmed_witness :
    htmlFilter "icon.svg" = true ∧
    occursIn ("<!--").data (" ok " : String).data = false ∧
    occursIn ("=\"\"").data (" ok " : String).data = false ∧
    (htmlMinifyOptions.removeComments = true ∧
     htmlMinifyOptions.removeEmptyAttributes = true ∧
     htmlMinifyOptions.collapseWhitespace = true ∧
     (∀ c, (HTMLMinifyPlugin.onLoad (fun _ _ => " ok ") (fun _ => "")
        "icon.svg").contents.data.head? = some c → isJsWhitespace c = false) ∧
     (∀ c, (HTMLMinifyPlugin.onLoad (fun _ _ => " ok ") (fun _ => "")
        "icon.svg").contents.data.getLast? = some c →
          isJsWhitespace c = false) ∧
     occursIn ("<!--").data (HTMLMinifyPlugin.onLoad (fun _ _ => " ok ")
        (fun _ => "") "icon.svg").contents.data = false ∧
     occursIn ("=\"\"").data (HTMLMinifyPlugin.onLoad (fun _ _ => " ok ")
        (fun _ => "") "icon.svg").contents.data = false) :=
  ⟨by decide, by decide, by decide,
    c2_html_transform_minified_trimmed (fun _ _ => " ok ") (fun _ => "")
      "icon.svg" (by decide) (by decide) (by decide)⟩

/-- C8: both asset transforms are deterministic functions of the file content
at the given path: two invocations on paths whose file contents agree return
equal module contents.  (In the embedding each `onLoad` hook is a pure
function of the engine callback, the file system and the path, so it has no
effect other than returning the substituted module body.) -/
theorem c8_transforms_deterministic
    (transform : String → TransformOptions → TransformResult)
    (minify : String → HtmlMinifyOptions → String)
    (rf1 rf2 : String → String) (p1 p2 : String)
    (h : rf1 p1 = rf2 p2) :
    CSSMinifyPlugin.onLoad transform rf1 p1
        = CSSMinifyPlugin.onLoad transform rf2 p2 ∧
    HTMLMinifyPlugin.onLoad minify rf1 p1
        = HTMLMinifyPlugin.onLoad minify rf2 p2 := by
  constructor
  · simp [CSSMinifyPlugin.onLoad, h]
  · simp [HTMLMinifyPlugin.onLoad, h]

/-- Witness for C8 at two distinct paths with identical contents. -/
theorem c8_transforms_deterministic_witness :
    (fun (_ : String) => "body") "a.css" = (fun (_ : String) => "body") "b.css"
    ∧ (CSSMinifyPlugin.onLoad (fun s _ => TransformResult.mk s)
          (fun _ => "body") "a.css"
        = CSSMinifyPlugin.onLoad (fun s _ => TransformResult.mk s)
          (fun _ => "body") "b.css" ∧
       HTMLMinifyPlugin.onLoad (fun s _ => s) (fun _ => "body") "a.css"
        = HTMLMinifyPlugin.onLoad (fun s _ => s) (fun _ => "body") "b.css") :=
  ⟨rfl, c8_transforms_deterministic (fun s _ => TransformResult.mk s)
      (fun s _ => s) (fun _ => "body") (fun _ => "body") "a.css" "b.css" rfl⟩

/-- C9: CSS minification inside the stylesheet transform is unconditional —
the transform always passes `minify: true` to the engine — whereas
minification of the emitted JavaScript (`baseConfig.minify`) tracks the
`--minify` CLI flag and is off when the flag is absent. -/
theorem c9_css_minify_unconditional (argv : List String) (pkg : PackageJson)
    (year : Nat) (transform : String → TransformOptions → TransformResult)
    (readFileSync : String → String) (path : String)
    (hm : isMinify argv = false) :
    cssTransformOptions.minify = true ∧
    (baseConfig argv pkg year).minify = false ∧
    (CSSMinifyPlugin.onLoad transform readFileSync path).contents
        = (transform (readFileSync path) cssTransformOptions).code := by
  refine ⟨rfl, ?_, rfl⟩
  simp [baseConfig, hm]

/-- Witness for C9 on an invocation without `--minify`. -/
theorem c9_css_minify_unconditional_witness :
    isMinify ["--watch"] = false ∧
    (cssTransformOptions.minify = true ∧
     (baseConfig ["--watch"]
        { version := "1.0.0", license := "MIT", author := "A",
          repository := { url := "u" } } 2026).minify = false ∧
     (CSSMinifyPlugin.onLoad (fun s _ => TransformResult.mk s)
        (fun _ => "p") "w.css").contents
        = ((fun (s : String) (_ : TransformOptions) => TransformResult.mk s)
            ((fun (_ : String) => "p") "w.css") cssTransformOptions).code) :=
  ⟨by decide, c9_css_minify_unconditional ["--watch"]
      { version := "1.0.0", license := "MIT", author := "A",
        repository := { url := "u" } } 2026
      (fun s _ => TransformResult.mk s) (fun _ => "p") "w.css" (by decide)⟩

/-- C3: one-shot building is all-or-nothing.  Every filtered target is handed
to the engine exactly once (the trace is the filtered target list — no retry
and no partial-success outcome); if any target's build rejects the process
exits with status 1, and if all of them resolve (and the target key of the
final log line is defined, as it is for the default `umd`) the process exits
with status 0. -/
theorem c3_oneshot_exit_codes (engine : Target → Except String Unit)
    (version : String) (argv : List String) (hw : isWatch argv = false) :
    (build engine version argv).1 = (targetsToBuild version).map Prod.snd ∧
    ((∃ kv ∈ targetsToBuild version, exceptOk (engine kv.2) = false) →
      exitCode engine version argv = 1) ∧
    ((∀ kv ∈ targetsToBuild version, exceptOk (engine kv.2) = true) →
      (buildTarget version argv).isSome = true →
      exitCode engine version argv = 0) := by
  refine ⟨build_oneshot_fst engine version argv hw, ?_, ?_⟩
  · rintro ⟨kv, hmem, hfail⟩
    have hnot : promiseAll (((targetsToBuild version).map Prod.snd).map engine)
        ≠ Except.ok () := by
      intro hok
      have hall := (promiseAll_ok_iff _).mp hok
      have hkv : exceptOk (engine kv.2) = true := by
        apply hall
        exact List.mem_map_of_mem engine (List.mem_map_of_mem Prod.snd hmem)
      rw [hfail] at hkv
      cases hkv
    unfold exitCode build
    rw [hw]
    cases hpa : promiseAll (((targetsToBuild version).map Prod.snd).map engine)
      with
    | ok u =>
      cases u
      exact absurd hpa hnot
    | error e => rfl
  · intro hall hsome
    have hok : promiseAll (((targetsToBuild version).map Prod.snd).map engine)
        = Except.ok () := by
      apply (promiseAll_ok_iff _).mpr
      intro r hr
      simp only [List.mem_map] at hr
      obtain ⟨t, ⟨kv, hkv, ht⟩, hr'⟩ := hr
      subst ht
      subst hr'
      exact hall kv hkv
    obtain ⟨t, hbt⟩ := Option.isSome_iff_exists.mp hsome
    have hacc : targetsAccess version argv = TargetsProp.own t :=
      (targetsAccess_own_iff version argv t).mpr hbt
    unfold exitCode build
    rw [hw, hok, hacc]
    rfl

/-- Witness for C3 with an engine that resolves every target. -/
theorem c3_oneshot_exit_codes_witness :
    isWatch ([] : List String) = false ∧
    ((build (fun _ => Except.ok ()) "1.0.0" []).1
        = (targetsToBuild "1.0.0").map Prod.snd ∧
     ((∃ kv ∈ targetsToBuild "1.0.0",
         exceptOk ((fun _ => Except.ok ()) kv.2) = false) →
       exitCode (fun _ => Except.ok ()) "1.0.0" [] = 1) ∧
     ((∀ kv ∈ targetsToBuild "1.0.0",
         exceptOk ((fun _ => Except.ok ()) kv.2) = true) →
       (buildTarget "1.0.0" []).isSome = true →
       exitCode (fun _ => Except.ok ()) "1.0.0" [] = 0)) :=
  ⟨by decide, c3_oneshot_exit_codes (fun _ => Except.ok ()) "1.0.0" []
      (by decide)⟩

/-- C4: a one-shot invocation with no `--target` flag hands exactly the three
unversioned targets — ESM, CJS and UMD/IIFE, with their `dist/` output files —
to the engine, and never the version-suffixed UMD target. -/
theorem c4_oneshot_builds_three_targets (engine : Target → Except String Unit)
    (version : String) (argv : List String) (hw : isWatch argv = false)
    (_ht : targetArg argv = none) :
    (build engine version argv).1
      = [{ format := "esm", outfile := "dist/accessibility-widget.esm.js" },
         { format := "cjs", outfile := "dist/accessibility-widget.cjs.js" },
         { format := "iife", outfile := "dist/accessibility-widget.umd.js",
           globalName := some "AccessibilityWidget" }] ∧
    ({ format := "iife",
       outfile := "dist/accessibility-widget-" ++ version ++ ".umd.js",
       globalName := some "AccessibilityWidget" } : Target)
      ∉ (build engine version argv).1 := by
  have hfst : (build engine version argv).1
      = [{ format := "esm", outfile := "dist/accessibility-widget.esm.js" },
         { format := "cjs", outfile := "dist/accessibility-widget.cjs.js" },
         { format := "iife", outfile := "dist/accessibility-widget.umd.js",
           globalName := some "AccessibilityWidget" }] := by
    rw [build_oneshot_fst engine version argv hw]
    rfl
  refine ⟨hfst, ?_⟩
  rw [hfst]
  intro hmem
  simp only [List.mem_cons, List.not_mem_nil, or_false] at hmem
  rcases hmem with h | h | h
  · have hf : ("iife" : String) = "esm" := congrArg Target.format h
    exact absurd hf (by decide)
  · have hf : ("iife" : String) = "cjs" := congrArg Target.format h
    exact absurd hf (by decide)
  · have ho : "dist/accessibility-widget-" ++ version ++ ".umd.js"
        = "dist/accessibility-widget.umd.js" := congrArg Target.outfile h
    exact versioned_outfile_ne version ho

/-- Witness for C4 on the plain one-shot invocation. -/
theorem c4_oneshot_builds_three_targets_witness :
    isWatch (["--minify"] : List String) = false ∧
    targetArg (["--minify"] : List String) = none ∧
    ((build (fun _ => Except.ok ()) "1.2.3" ["--minify"]).1
      = [{ format := "esm", outfile := "dist/accessibility-widget.esm.js" },
         { format := "cjs", outfile := "dist/accessibility-widget.cjs.js" },
         { format := "iife", outfile := "dist/accessibility-widget.umd.js",
           globalName := some "AccessibilityWidget" }] ∧
     ({ format := "iife",
        outfile := "dist/accessibility-widget-" ++ "1.2.3" ++ ".umd.js",
        globalName := some "AccessibilityWidget" } : Target)
       ∉ (build (fun _ => Except.ok ()) "1.2.3" ["--minify"]).1) :=
  ⟨by decide, by decide,
    c4_oneshot_builds_three_targets (fun _ => Except.ok ()) "1.2.3"
      ["--minify"] (by decide) (by decide)⟩

/-- The project-metadata fixture of C5: version `1.2.3`, license `MIT`,
author `A`, repository URL `https://example.com/repo`, no optional fields. -/
def fixturePkg : PackageJson :=
  { version := "1.2.3", license := "MIT", author := "A",
    repository := { url := "https://example.com/repo" } }

/-- The banner text generated from `fixturePkg` up to (and excluding) the
interpolated year: the fixture has no `modifiedByCompany`, so its conditional
block contributes the empty string and the year first appears in the
`Original: (c)` line. -/
def bannerFixtureHead : String :=
  "/*!\n* Accessibility Widget v1.2.3\n* Based on \"Sienna Accessibility Widget\" by bennyluk (MIT License)\n\n* License: MIT\n* Repository: https://example.com/repo\n* \n* Original: (c) "

/-- Everything occurring in `bannerFixtureHead` occurs in the full fixture
banner, whatever the year: the banner is the head followed by the year and
the closing lines. -/
theorem banner_fixture_of_head (sub : List Char) (year : Nat)
    (h : occursIn sub bannerFixtureHead.data = true) :
    occursIn sub (banner fixturePkg year).data = true :=
  occursIn_str_append "\n*/"
    (occursIn_str_append "https://example.com/repo"
      (occursIn_str_append "\n* Original Repository: "
        (occursIn_str_append "A"
          (occursIn_str_append " "
            (occursIn_str_append (toString year) h)))))

/-- C5: for the fixed metadata fixture (version `1.2.3`, license `MIT`,
author `A`, repository URL `https://example.com/repo`), the generated banner
contains the literal substrings `Accessibility Widget v1.2.3` and
`License: MIT`, for every current year. -/
theorem c5_banner_contains_version_and_license (year : Nat) :
    occursIn ("Accessibility Widget v1.2.3").data
      (banner fixturePkg year).data = true ∧
    occursIn ("License: MIT").data (banner fixturePkg year).data = true := by
  constructor
  · exact banner_fixture_of_head _ year (by decide)
  · exact banner_fixture_of_head _ year (by decide)

/-- Witness for C5 at the concrete year 2026. -/
theorem c5_banner_contains_version_and_license_witness :
    occursIn ("Accessibility Widget v1.2.3").data
      (banner fixturePkg 2026).data = true ∧
    occursIn ("License: MIT").data (banner fixturePkg 2026).data = true :=
  c5_banner_contains_version_and_license 2026

/-- C6: in one-shot mode the set of targets handed to the engine does not
depend on the `--target` flag — any two one-shot invocations build the same
target list — and that list's keys never include `umd-versioned`, because the
list is filtered by target key, not by the flag. -/
theorem c6_oneshot_flag_independent (engine : Target → Except String Unit)
    (version : String) (argv argv' : List String) (hw : isWatch argv = false)
    (hw' : isWatch argv' = false) :
    (build engine version argv).1 = (build engine version argv').1 ∧
    ∀ kv ∈ targetsToBuild version, kv.1 ≠ "umd-versioned" := by
  constructor
  · rw [build_oneshot_fst engine version argv hw,
      build_oneshot_fst engine version argv' hw']
  · intro kv hkv
    have hk := List.of_mem_filter hkv
    simpa using hk

/-- Witness for C6: supplying `--target=umd-versioned` changes nothing. -/
theorem c6_oneshot_flag_independent_witness :
    isWatch (["--target=umd-versioned"] : List String) = false ∧
    isWatch ([] : List String) = false ∧
    ((build (fun _ => Except.ok ()) "1.0.0" ["--target=umd-versioned"]).1
        = (build (fun _ => Except.ok ()) "1.0.0" []).1 ∧
     ∀ kv ∈ targetsToBuild "1.0.0", kv.1 ≠ "umd-versioned") :=
  ⟨by decide, by decide,
    c6_oneshot_flag_independent (fun _ => Except.ok ()) "1.0.0"
      ["--target=umd-versioned"] [] (by decide) (by decide)⟩

/-- C7: in watch mode exactly one target is handed to the engine: the target
named by `--target=<name>` when that name is defined, and the `umd` target
when no `--target` flag is given. -/
theorem c7_watch_single_target (engine : Target → Except String Unit)
    (version : String) (argv : List String) (hw : isWatch argv = true) :
    (targetArg argv = none → (build engine version argv).1
        = [{ format := "iife", outfile := "dist/accessibility-widget.umd.js",
             globalName := some "AccessibilityWidget" }]) ∧
    (∀ t, buildTarget version argv = some t →
      (build engine version argv).1 = [t]) := by
  constructor
  · intro ht
    have hbt : buildTarget version argv
        = some { format := "iife",
                 outfile := "dist/accessibility-widget.umd.js",
                 globalName := some "AccessibilityWidget" } := by
      unfold buildTarget targetFormat
      rw [ht]
      rfl
    have hacc := (targetsAccess_own_iff version argv _).mpr hbt
    unfold build
    rw [hw, hacc]
    rfl
  · intro t hbt
    have hacc := (targetsAccess_own_iff version argv t).mpr hbt
    unfold build
    rw [hw, hacc]
    rfl

/-- Witness for C7 on `--watch` with no `--target` flag. -/
theorem c7_watch_single_target_witness :
    isWatch (["--watch"] : List String) = true ∧
    ((targetArg ["--watch"] = none →
      (build (fun _ => Except.ok ()) "1.0.0" ["--watch"]).1
        = [{ format := "iife", outfile := "dist/accessibility-widget.umd.js",
             globalName := some "AccessibilityWidget" }]) ∧
     (∀ t, buildTarget "1.0.0" ["--watch"] = some t →
       (build (fun _ => Except.ok ()) "1.0.0" ["--watch"]).1 = [t])) :=
  ⟨by decide, c7_watch_single_target (fun _ => Except.ok ()) "1.0.0"
      ["--watch"] (by decide)⟩

/-- A name not in a string list is not `contains`-found in it. -/
theorem contains_eq_false_of_not_mem {l : List String} {a : String}
    (h : a ∉ l) : l.contains a = false := by
  cases hc : l.contains a with
  | false => rfl
  | true => exact absurd (List.mem_of_elem_eq_true hc) h

/-- Counterexample to C10 as stated: `toString` is not one of the four
defined target keys, yet the JS property access `targets['toString']` of
line 92 is not `undefined` — it hits the member inherited from
`Object.prototype` — so an unrecognized `--target` name does not in general
leave the selected target record undefined (and line 98 then reads
`.outfile` on that member without throwing). -/
theorem c10_watch_unknown_target_fails_counterexample :
    ("toString" : String)
      ∉ (["esm", "cjs", "umd", "umd-versioned"] : List String) ∧
    isWatch (["--watch", "--target=toString"] : List String) = true ∧
    targetFormat (["--watch", "--target=toString"] : List String)
      = "toString" ∧
    targetsAccess "1.0.0" ["--watch", "--target=toString"]
      ≠ TargetsProp.undef :=
  ⟨by decide, by decide, by decide, by decide⟩

/-- C10 (amended): in watch mode a `--target` name that is neither one of
the four defined target keys (`esm`, `cjs`, `umd`, `umd-versioned`) nor a
property name inherited from `Object.prototype` makes the selected target
record `undefined`, so no target is built — there is no silent fallback to
the default `umd` — and the invocation rejects (line 98 reads
`buildTarget.outfile` on `undefined`), terminating the process with exit
status 1.  For inherited names such as `toString` the access yields the
inherited member instead: see `c10_watch_unknown_target_fails_counterexample`. -/
theorem c10_watch_unknown_target_fails (engine : Target → Except String Unit)
    (version : String) (argv : List String) (hw : isWatch argv = true)
    (hname : targetFormat argv
      ∉ (["esm", "cjs", "umd", "umd-versioned"] : List String))
    (hproto : targetFormat argv ∉ objectPrototypeKeys) :
    targetsAccess version argv = TargetsProp.undef ∧
    buildTarget version argv = none ∧
    (build engine version argv).1 = [] ∧
    exitCode engine version argv = 1 := by
  simp only [List.mem_cons, List.not_mem_nil, or_false, not_or] at hname
  obtain ⟨h1, h2, h3, h4⟩ := hname
  have e1 : (targetFormat argv == "esm") = false := beq_eq_false_iff_ne.mpr h1
  have e2 : (targetFormat argv == "cjs") = false := beq_eq_false_iff_ne.mpr h2
  have e3 : (targetFormat argv == "umd") = false := beq_eq_false_iff_ne.mpr h3
  have e4 : (targetFormat argv == "umd-versioned") = false :=
    beq_eq_false_iff_ne.mpr h4
  have hlook : (targets version).lookup (targetFormat argv) = none := by
    simp [targets, List.lookup, e1, e2, e3, e4]
  have hbt : buildTarget version argv = none := hlook
  have hcont : objectPrototypeKeys.contains (targetFormat argv) = false :=
    contains_eq_false_of_not_mem hproto
  have hacc : targetsAccess version argv = TargetsProp.undef := by
    unfold targetsAccess
    rw [hbt, hcont]
    rfl
  refine ⟨hacc, hbt, ?_, ?_⟩
  · unfold build
    rw [hw, hacc]
    rfl
  · unfold exitCode build
    rw [hw, hacc]
    rfl

/-- Witness for the amended C10 on `--watch --target=modern`. -/
theorem c10_watch_unknown_target_fails_witness :
    isWatch (["--watch", "--target=modern"] : List String) = true ∧
    targetFormat (["--watch", "--target=modern"] : List String)
      ∉ (["esm", "cjs", "umd", "umd-versioned"] : List String) ∧
    targetFormat (["--watch", "--target=modern"] : List String)
      ∉ objectPrototypeKeys ∧
    (targetsAccess "1.0.0" ["--watch", "--target=modern"]
        = TargetsProp.undef ∧
     buildTarget "1.0.0" ["--watch", "--target=modern"] = none ∧
     (build (fun _ => Except.ok ()) "1.0.0"
        ["--watch", "--target=modern"]).1 = [] ∧
     exitCode (fun _ => Except.ok ()) "1.0.0"
        ["--watch", "--target=modern"] = 1) :=
  ⟨by decide, by decide, by decide,
    c10_watch_unknown_target_fails (fun _ => Except.ok ()) "1.0.0"
      ["--watch", "--target=modern"] (by decide) (by decide) (by decide)⟩

end EsbuildConfig
